import Mathlib

/-!
Verification of the date-anchoring / nearest-trading-day / backtest core of the
Astock repository (src/app.py, src/engine_cn.py, src/engine_jp.py).

The Python code works with `datetime.datetime` values (always at midnight for
anchor dates), pandas series of (date, closing price) rows, and the standard
`calendar` module.  We embed:

  * calendar dates as a `Date` structure of (year, month, day) naturals,
    compared lexicographically exactly as Python `datetime` comparison does;
  * day distances (`(a - b).days` on timedeltas) via a proleptic-Gregorian
    day count `toDays`;
  * `calendar.monthrange`/`calendar.monthcalendar` via `monthLength`,
    `dayOfWeek` (Monday = 0, Python's convention) and `monthWeekdayDays`;
  * pandas `Series.abs().idxmin()` (which returns the FIRST index attaining
    the minimum) via the fold `argminFirst`;
  * prices as rationals `ℚ` (the Python floats; no rounding behaviour is at
    stake in any claim).
-/

/-- Embeds Python `calendar.isleap` (the Gregorian leap-year rule used by
`calendar.monthrange`). -/
def isLeapYear (y : Nat) : Bool :=
  (y % 4 == 0 && y % 100 != 0) || y % 400 == 0

/-- Embeds `calendar.monthrange(y, m)[1]`: the number of days of month `m`
of year `y`.  Only meaningful for `1 ≤ m ≤ 12` (Python raises
`IllegalMonthError` outside that range; we return 0 there, and every theorem
that depends on month lengths carries the `1 ≤ m ≤ 12` bound). -/
def monthLength (y m : Nat) : Nat :=
  match m with
  | 1 => 31
  | 2 => if isLeapYear y then 29 else 28
  | 3 => 31
  | 4 => 30
  | 5 => 31
  | 6 => 30
  | 7 => 31
  | 8 => 31
  | 9 => 30
  | 10 => 31
  | 11 => 30
  | 12 => 31
  | _ => 0

/-- Days in the years strictly before year `y` (proleptic Gregorian,
counting from year 1). -/
def daysBeforeYear (y : Nat) : Nat :=
  365 * (y - 1) + (y - 1) / 4 + (y - 1) / 400 - (y - 1) / 100

/-- Days in the months of year `y` strictly before month `m`. -/
def daysBeforeMonth (y m : Nat) : Nat :=
  (List.range (m - 1)).foldl (fun acc i => acc + monthLength y (i + 1)) 0

/-- A calendar date, embedding a Python `datetime.datetime` at midnight
(the only time-of-day the anchor rules ever construct). -/
structure Date where
  y : Nat
  m : Nat
  d : Nat
deriving DecidableEq, Repr

/-- Rata-die style day number; differences of `toDays` embed
`(a - b).days` on Python timedeltas between midnight datetimes. -/
def toDays (dte : Date) : Nat :=
  daysBeforeYear dte.y + daysBeforeMonth dte.y dte.m + dte.d

/-- Python `datetime.weekday()`: Monday = 0 … Sunday = 6.
Day number 1 (0001-01-01) is a Monday. -/
def dayOfWeek (y m d : Nat) : Nat :=
  (toDays ⟨y, m, d⟩ - 1) % 7

/-- Python `datetime` comparison `a < b`: lexicographic on
(year, month, day). -/
def Date.lt (a b : Date) : Prop :=
  a.y < b.y ∨ (a.y = b.y ∧ (a.m < b.m ∨ (a.m = b.m ∧ a.d < b.d)))

instance (a b : Date) : Decidable (Date.lt a b) := by
  unfold Date.lt; infer_instance

/-- Python `datetime` comparison `a <= b`. -/
def Date.le (a b : Date) : Prop :=
  a = b ∨ Date.lt a b

instance (a b : Date) : Decidable (Date.le a b) := by
  unfold Date.le; infer_instance

/-- `|a - b|` in days, embedding `(a - b).days` absolute value on
pandas timedeltas. -/
def distDays (a b : Date) : Nat :=
  ((toDays a : Int) - (toDays b : Int)).natAbs

/-- The days of month `m` of year `y` that fall on weekday `k`
(Monday = 0), ascending.  This embeds
`[week[k] for week in calendar.monthcalendar(y, m) if week[k] != 0]`:
the non-zero entries of column `k` of the month matrix are exactly the
month's days falling on weekday `k`, in ascending (week) order. -/
def monthWeekdayDays (y m k : Nat) : List Nat :=
  ((List.range (monthLength y m)).map (· + 1)).filter
    (fun d => dayOfWeek y m d == k)

/-- `monthWeekdayDays` after abstracting the month to the weekday of its
1st (`w1`) and its length (`N`); used to settle calendar facts by a finite
check over the 7 × 4 possible month shapes. -/
def weekdayColumn (w1 N k : Nat) : List Nat :=
  ((List.range N).map (· + 1)).filter
    (fun d => (w1 + (d - 1)) % 7 == k)

/-- Generic Nth-weekday rule shared by the four delivery-date functions:
`datetime(y, m, days[n-1]) if len(days) >= n else None`. -/
def nthWeekdayDate (year month k n : Nat) : Option Date :=
  if n ≤ (monthWeekdayDays year month k).length then
    match (monthWeekdayDays year month k).get? (n - 1) with
    | some d => some ⟨year, month, d⟩
    | none => none
  else none

namespace EngineCN

/-- Embeds `get_futures_delivery` of src/app.py and src/engine_cn.py:
the 3rd Friday (`fridays[2] if len(fridays) >= 3 else None`). -/
def get_futures_delivery (year month : Nat) : Option Date :=
  nthWeekdayDate year month 4 3

/-- Embeds `get_option_delivery` of src/app.py and src/engine_cn.py:
the 4th Wednesday (`wednesdays[3] if len(wednesdays) >= 4 else None`). -/
def get_option_delivery (year month : Nat) : Option Date :=
  nthWeekdayDate year month 2 4

end EngineCN

namespace EngineJP

/-- Embeds `get_futures_delivery` of src/engine_jp.py: the 2nd Friday
(`fridays[1] if len(fridays) >= 2 else None`). -/
def get_futures_delivery (year month : Nat) : Option Date :=
  nthWeekdayDate year month 4 2

/-- Embeds `get_option_delivery` of src/engine_jp.py: the 3rd Friday
(`fridays[2] if len(fridays) >= 3 else None`). -/
def get_option_delivery (year month : Nat) : Option Date :=
  nthWeekdayDate year month 4 3

end EngineJP

/-- Embeds `get_month_end`: `datetime(year, month, monthrange(year, month)[1])`. -/
def get_month_end (year month : Nat) : Date :=
  ⟨year, month, monthLength year month⟩

/-- Embeds `get_mid_month`: `datetime(year, month, 15)`. -/
def get_mid_month (year month : Nat) : Date :=
  ⟨year, month, 15⟩

/-- Embeds `series.idxmin()` row selection on a non-empty frame with head
`x` and tail `xs`: pandas `idxmin` returns the FIRST index attaining the
minimum, which this left fold with a strict-improvement test reproduces. -/
def argminFirst {α : Type} (w : α → Nat) (x : α) (xs : List α) : α :=
  xs.foldl (fun acc o => if w o < w acc then o else acc) x

theorem argminFirst_nil {α : Type} (w : α → Nat) (x : α) :
    argminFirst w x [] = x := rfl

theorem argminFirst_cons {α : Type} (w : α → Nat) (x z : α) (ys : List α) :
    argminFirst w x (z :: ys) =
      argminFirst w (if w z < w x then z else x) ys := rfl

theorem argminFirst_mem {α : Type} (w : α → Nat) (x : α) (xs : List α) :
    argminFirst w x xs ∈ x :: xs := by
  induction xs generalizing x with
  | nil => simp [argminFirst]
  | cons z ys ih =>
    rw [argminFirst_cons]
    by_cases hzx : w z < w x
    · rw [if_pos hzx]
      rcases List.mem_cons.1 (ih z) with h | h
      · rw [h]; exact List.mem_cons_of_mem _ (List.mem_cons_self _ _)
      · exact List.mem_cons_of_mem _ (List.mem_cons_of_mem _ h)
    · rw [if_neg hzx]
      rcases List.mem_cons.1 (ih x) with h | h
      · rw [h]; exact List.mem_cons_self _ _
      · exact List.mem_cons_of_mem _ (List.mem_cons_of_mem _ h)

theorem argminFirst_le {α : Type} (w : α → Nat) (x : α) (xs : List α) :
    ∀ y ∈ x :: xs, w (argminFirst w x xs) ≤ w y := by
  induction xs generalizing x with
  | nil =>
    intro y hy
    rcases List.mem_cons.1 hy with rfl | h
    · exact Nat.le_refl _
    · cases h
  | cons z ys ih =>
    intro y hy
    rw [argminFirst_cons]
    by_cases hzx : w z < w x
    · rw [if_pos hzx]
      have hhead := ih z _ (List.mem_cons_self z ys)
      rcases List.mem_cons.1 hy with rfl | hy'
      · exact Nat.le_trans hhead (Nat.le_of_lt hzx)
      · rcases List.mem_cons.1 hy' with rfl | hy''
        · exact hhead
        · exact ih z _ (List.mem_cons_of_mem _ hy'')
    · rw [if_neg hzx]
      have hhead := ih x _ (List.mem_cons_self x ys)
      rcases List.mem_cons.1 hy with rfl | hy'
      · exact hhead
      · rcases List.mem_cons.1 hy' with rfl | hy''
        · exact Nat.le_trans hhead (Nat.le_of_not_lt hzx)
        · exact ih x _ (List.mem_cons_of_mem _ hy'')

theorem argminFirst_eq_head_of_w_eq {α : Type} (w : α → Nat) (x : α) (xs : List α)
    (h : w (argminFirst w x xs) = w x) : argminFirst w x xs = x := by
  induction xs generalizing x with
  | nil => rfl
  | cons z ys ih =>
    rw [argminFirst_cons] at h ⊢
    by_cases hzx : w z < w x
    · exfalso
      have hle := argminFirst_le w (if w z < w x then z else x) ys _
        (List.mem_cons_self _ _)
      rw [h] at hle
      simp only [hzx, if_pos] at hle
      exact Nat.not_lt.2 hle hzx
    · simp only [hzx, if_neg, if_false] at h ⊢
      exact ih x h

theorem argminFirst_tie_first {α : Type} (w : α → Nat) (R : α → α → Prop)
    (x : α) (xs : List α) (hs : (x :: xs).Pairwise R) :
    ∀ y ∈ x :: xs, w y = w (argminFirst w x xs) →
      argminFirst w x xs = y ∨ R (argminFirst w x xs) y := by
  induction xs generalizing x with
  | nil =>
    intro y hy _
    rcases List.mem_cons.1 hy with rfl | h
    · exact Or.inl rfl
    · cases h
  | cons z ys ih =>
    rw [List.pairwise_cons] at hs
    obtain ⟨hx_all, hs_tail⟩ := hs
    intro y hy htie
    rw [argminFirst_cons] at htie ⊢
    by_cases hzx : w z < w x
    · simp only [hzx, if_pos] at htie ⊢
      rcases List.mem_cons.1 hy with rfl | hy'
      · -- y = x : impossible tie, the argmin is strictly below w x
        exfalso
        have hle := argminFirst_le w z ys _ (List.mem_cons_self _ _)
        rw [← htie] at hle
        exact Nat.not_lt.2 hle hzx
      · exact ih z hs_tail y hy' htie
    · simp only [hzx, if_neg, if_false] at htie ⊢
      have hs_x_ys : (x :: ys).Pairwise R := by
        rw [List.pairwise_cons]
        exact ⟨fun b hb => hx_all b (List.mem_cons_of_mem _ hb),
          (List.pairwise_cons.1 hs_tail).2⟩
      rcases List.mem_cons.1 hy with rfl | hy'
      · exact ih y hs_x_ys y (List.mem_cons_self _ _) htie
      · rcases List.mem_cons.1 hy' with rfl | hy''
        · -- y = z : the argmin must be the head x, which is earlier than z
          have hle := argminFirst_le w x ys _ (List.mem_cons_self _ _)
          have hxz : w x ≤ w y := Nat.le_of_not_lt hzx
          have hxeq : w (argminFirst w x ys) = w x :=
            Nat.le_antisymm hle (htie ▸ hxz)
          rw [argminFirst_eq_head_of_w_eq w x ys hxeq]
          exact Or.inr (hx_all y (List.mem_cons_self _ _))
        · exact ih x hs_x_ys y (List.mem_cons_of_mem _ hy'') htie

/-- Embeds the human-readable note string built from `diff_days` in
`get_nearest_price_info` ("当日" same day / "延后N天" N days later /
"提前N天" N days earlier). -/
def offsetNote (diffDays : Int) : String :=
  if diffDays > 0 then "延后" ++ toString diffDays ++ "天"
  else if diffDays < 0 then "提前" ++ toString (-diffDays) ++ "天"
  else "当日"

/-- Embeds `get_nearest_price_info(target_date, df)` of src/app.py /
src/engine_cn.py / src/engine_jp.py, over a series of (date-as-day-number,
closing-price) rows.  The Python function returns
`(None, None, "")` when `df is None or df.empty` (modelled by the empty
list) and otherwise `(actual_date, price, note)` for the row whose date
attains the minimal `abs(date - target)` at the earliest index; we expose
the signed `diff_days = (actual_date - target_date).days` the note is
rendered from as an extra component. -/
def get_nearest_price_info (target : Int) (df : List (Int × ℚ)) :
    Option (Int × ℚ × Int × String) :=
  match df with
  | [] => none
  | x :: xs =>
    let best := argminFirst (fun p => (p.1 - target).natAbs) x xs
    some (best.1, best.2, best.1 - target, offsetNote (best.1 - target))

/-- The two date modes of the basic-query tab ("A: 月中 & 月底",
"B: 期货/SQ & 期权/オプション"). -/
inductive Mode
  | A
  | B
deriving DecidableEq, Repr

/-- The per-market configuration: the two derivative-expiry rules and the
presentation labels of the four anchor kinds.  src/app.py and
src/engine_cn.py use the 3rd-Friday / 4th-Wednesday pair; src/engine_jp.py
uses the 2nd-Friday / 3rd-Friday pair. -/
structure ExpiryConfig where
  futuresDelivery : Nat → Nat → Option Date
  optionDelivery : Nat → Nat → Option Date
  midLabel : String
  endLabel : String
  futuresLabel : String
  optionLabel : String

/-- Configuration of src/app.py and src/engine_cn.py. -/
def cnConfig : ExpiryConfig :=
  ⟨EngineCN.get_futures_delivery, EngineCN.get_option_delivery,
    "月中", "月底", "期货交割日", "期权交割日"⟩

/-- Configuration of src/engine_jp.py. -/
def jpConfig : ExpiryConfig :=
  ⟨EngineJP.get_futures_delivery, EngineJP.get_option_delivery,
    "月中", "月末", "SQ日(第2金曜)", "オプション(第3金曜)"⟩

/-- The `dates_to_check` list built for one month `m` of the basic-query
loop: mode A emits (mid-month, month-end); mode B appends the futures
expiry and then the option expiry, each only when its rule returned a
date. -/
def anchorsForMonth (cfg : ExpiryConfig) (year : Nat) (mode : Mode)
    (m : Nat) : List (String × Date) :=
  match mode with
  | .A => [(cfg.midLabel, get_mid_month year m),
           (cfg.endLabel, get_month_end year m)]
  | .B =>
    (match cfg.futuresDelivery year m with
     | some f => [(cfg.futuresLabel, f)]
     | none => []) ++
    (match cfg.optionDelivery year m with
     | some o => [(cfg.optionLabel, o)]
     | none => [])

/-- The anchor sequence the basic-query loop feeds to the resolver:
months 1..12 in order, keeping from each month's `dates_to_check` only the
anchors with `dt <= today` (the `if dt <= today:` filter, compared at date
granularity: the anchors are midnight datetimes, so `dt <= now` holds iff
the anchor's calendar date is on or before now's calendar date). -/
def generateAnchors (cfg : ExpiryConfig) (year : Nat) (mode : Mode)
    (today : Date) : List (String × Date) :=
  ((List.range 12).map (fun i =>
    (anchorsForMonth cfg year mode (i + 1)).filter
      (fun a => decide (Date.le a.2 today)))).flatten

/-- One row of the fetched price frame: a trading-day observation. -/
structure Obs where
  date : Date
  close : ℚ
deriving DecidableEq, Repr

/-- The fetched TradingSeries (list of rows of the price DataFrame,
in the frame's order, i.e. ascending by date as fetched). -/
abbrev Series := List Obs

/-- The three buy-point choices of the backtest tab
(futures expiry / option expiry / last trading day of the month). -/
inductive BuyRule
  | futures
  | optionDeliv
  | monthEnd
deriving DecidableEq, Repr

/-- The two sell-point choices of the backtest tab
(first trading day of next month / 15th of next month or nearest). -/
inductive SellRule
  | firstDay
  | mid15
deriving DecidableEq, Repr

/-- Embeds `df[(df['Year'] == y) & (df['Month'] == m)]`: the sub-frame of
rows dated in month `m` of year `y`, in the frame's original order. -/
def monthPartition (df : Series) (y m : Nat) : Series :=
  df.filter (fun o => o.date.y == y && o.date.m == m)

/-- Embeds the buy-leg block of the backtest loop of src/engine_cn.py
(lines 173-183) / src/engine_jp.py (lines 190-204): restrict to the
current month's partition; if it is empty the month is skipped; the
"last trading day" rule takes `iloc[-1]`, the expiry rules resolve the
delivery date by `abs().idxmin()` within the partition (skipping the
month when the rule returned `None`). -/
def buyObs (cfg : ExpiryConfig) (year : Nat) (rule : BuyRule) (df : Series)
    (m : Nat) : Option Obs :=
  match monthPartition df year m with
  | [] => none
  | x :: xs =>
    match rule with
    | .monthEnd => some ((x :: xs).getLast (List.cons_ne_nil x xs))
    | .futures =>
      match cfg.futuresDelivery year m with
      | none => none
      | some t => some (argminFirst (fun o => distDays o.date t) x xs)
    | .optionDeliv =>
      match cfg.optionDelivery year m with
      | none => none
      | some t => some (argminFirst (fun o => distDays o.date t) x xs)

/-- `(next_y, next_m)`: the following month, wrapping to January of the
next year after December (`(t2_year, m+1) if m < 12 else (t2_year+1, 1)`). -/
def nextYM (year m : Nat) : Nat × Nat :=
  if m < 12 then (year, m + 1) else (year + 1, 1)

/-- Embeds the sell-leg block of the backtest loop: restrict to the next
month's partition; the "first trading day" rule takes `iloc[0]`, the
"15th or nearest" rule resolves `datetime(next_y, next_m, 15)` by
`abs().idxmin()` within the partition. -/
def sellObs (year : Nat) (rule : SellRule) (df : Series) (m : Nat) :
    Option Obs :=
  match monthPartition df (nextYM year m).1 (nextYM year m).2 with
  | [] => none
  | x :: xs =>
    match rule with
    | .firstDay => some x
    | .mid15 =>
      some (argminFirst
        (fun o => distDays o.date ⟨(nextYM year m).1, (nextYM year m).2, 15⟩)
        x xs)

/-- One recorded trade (`trades.append({...})`).  `month` is the loop
month `m` the row is labelled with (`f"{m}月"`). -/
structure Trade where
  month : Nat
  buy : Obs
  sell : Obs
  profit : ℚ
deriving DecidableEq, Repr

/-- One iteration of the backtest loop for month `m`: buy leg, then (only
when the buy leg resolved, `if b_date:`) sell leg, then the record guard
`if s_date and s_price and s_date > b_date:` — the sell leg must have
resolved, its price must be truthy (non-zero), and the sell date must be
strictly later than the buy date; otherwise no trade is recorded. -/
def tradeForMonth (cfg : ExpiryConfig) (year : Nat) (br : BuyRule)
    (sr : SellRule) (df : Series) (m : Nat) : Option Trade :=
  match buyObs cfg year br df m with
  | none => none
  | some b =>
    match sellObs year sr df m with
    | none => none
    | some s =>
      if s.close ≠ 0 ∧ Date.lt b.date s.date then
        some ⟨m, b, s, s.close - b.close⟩
      else none

/-- The full backtest ledger: the loop `for m in range(1, 13)` collecting
the months that produced a trade, in month order. -/
def runBacktest (cfg : ExpiryConfig) (year : Nat) (br : BuyRule)
    (sr : SellRule) (df : Series) : List Trade :=
  (List.range 12).filterMap (fun i => tradeForMonth cfg year br sr df (i + 1))

/-- The aggregate metrics of the backtest summary. -/
structure Metrics where
  initial_cost : ℚ
  total_profit : ℚ
  strategy_yield_pct : ℚ
  hold_ratio_pct : ℚ
  hold_yield_pct : ℚ
deriving DecidableEq, Repr

/-- Embeds the metrics block guarded by `if trades:` (src/app.py lines
205-215): on an empty ledger no metrics are computed (the warning branch);
otherwise `first_buy = iloc[0]['买入价']`, `last_sell = iloc[-1]['卖出价']`,
`total_profit = sum(收益)`, `yield_strategy = total_profit/first_buy*100`,
`yield_hold = last_sell/first_buy*100`, `yield_hold_real = yield_hold - 100`
(src/engine_cn.py displays the algebraically identical
`(last_sell/first_buy - 1)*100` for the last figure). -/
def backtestMetrics (ts : List Trade) : Option Metrics :=
  match ts.head?, ts.getLast? with
  | some t0, some tl =>
    let first_buy := t0.buy.close
    let last_sell := tl.sell.close
    let total_profit := (ts.map Trade.profit).sum
    some ⟨first_buy, total_profit, total_profit / first_buy * 100,
      last_sell / first_buy * 100, last_sell / first_buy * 100 - 100⟩
  | _, _ => none

theorem monthLength_bounds (y m : Nat) (h1 : 1 ≤ m) (h2 : m ≤ 12) :
    28 ≤ monthLength y m ∧ monthLength y m ≤ 31 := by
  interval_cases m <;> simp only [monthLength] <;>
    first
      | omega
      | (split <;> omega)

theorem dayOfWeek_lt_seven (y m d : Nat) : dayOfWeek y m d < 7 :=
  Nat.mod_lt _ (by norm_num)

theorem dayOfWeek_shift (y m d : Nat) (hd : 1 ≤ d) :
    dayOfWeek y m d = (dayOfWeek y m 1 + (d - 1)) % 7 := by
  unfold dayOfWeek toDays
  have hB : daysBeforeYear y + daysBeforeMonth y m + d - 1
      = (daysBeforeYear y + daysBeforeMonth y m) + (d - 1) := by omega
  have h1 : daysBeforeYear y + daysBeforeMonth y m + 1 - 1
      = daysBeforeYear y + daysBeforeMonth y m := by omega
  simp only
  rw [hB, h1, Nat.mod_add_mod]

theorem monthWeekdayDays_eq (y m k : Nat) :
    monthWeekdayDays y m k =
      weekdayColumn (dayOfWeek y m 1) (monthLength y m) k := by
  unfold monthWeekdayDays weekdayColumn
  apply List.filter_congr
  intro d hd
  have hd1 : 1 ≤ d := by
    rcases List.mem_map.1 hd with ⟨i, _, rfl⟩
    omega
  rw [dayOfWeek_shift y m d hd1]

/-- Number of days of the (w1, N)-shaped month that are strictly before
day `d` and fall on weekday `k`. -/
def nthCountBefore (w1 N k d : Nat) : Nat :=
  (((List.range N).map (· + 1)).filter
    (fun e => decide (e < d) && ((w1 + (e - 1)) % 7 == k))).length

/-- Independent specification of "day `d` is the `n`-th occurrence of
weekday `k` in month (y, m)", verified by iterating the month's days:
`d` lies in the month, falls on weekday `k`, and exactly `n - 1` earlier
days of the month fall on weekday `k`. -/
def isNthWeekdayOfMonth (y m k n d : Nat) : Prop :=
  1 ≤ d ∧ d ≤ monthLength y m ∧ dayOfWeek y m d = k ∧
  (((List.range (monthLength y m)).map (· + 1)).filter
    (fun e => decide (e < d) && (dayOfWeek y m e == k))).length = n - 1

/-- A month is determined, for weekday bookkeeping, by the weekday of its
1st (7 cases) and its length (28..31): basic shape facts, by finite
check.  Every weekday occurs at least 4 and at most 5 times, and the
occurrence list is strictly increasing. -/
theorem weekdayColumn_basic :
    ∀ w1 : Fin 7, ∀ dN : Fin 4, ∀ k : Fin 7,
      4 ≤ (weekdayColumn w1.val (28 + dN.val) k.val).length ∧
      (weekdayColumn w1.val (28 + dN.val) k.val).length ≤ 5 ∧
      List.Pairwise (· < ·) (weekdayColumn w1.val (28 + dN.val) k.val) := by
  decide

/-- Finite check: the 3rd Friday always falls strictly before the 4th
Wednesday of the same month. -/
theorem weekdayColumn_cn_lt :
    ∀ w1 : Fin 7, ∀ dN : Fin 4,
      ((weekdayColumn w1.val (28 + dN.val) 4).get? 2).getD 0 <
        ((weekdayColumn w1.val (28 + dN.val) 2).get? 3).getD 0 := by
  decide

/-- Finite check: the 2nd Friday always falls strictly before the 3rd
Friday of the same month. -/
theorem weekdayColumn_jp_lt :
    ∀ w1 : Fin 7, ∀ dN : Fin 4,
      ((weekdayColumn w1.val (28 + dN.val) 4).get? 1).getD 0 <
        ((weekdayColumn w1.val (28 + dN.val) 4).get? 2).getD 0 := by
  decide

/-- Finite check: when `n' + 1 ≤` the number of occurrences, entry `n'`
of the occurrence list is a day of the month on weekday `k` with exactly
`n'` earlier same-weekday days — i.e. it is the (n'+1)-th occurrence. -/
theorem weekdayColumn_nth :
    ∀ w1 : Fin 7, ∀ dN : Fin 4, ∀ k : Fin 7, ∀ n' : Fin 5,
      n'.val + 1 ≤ (weekdayColumn w1.val (28 + dN.val) k.val).length →
      1 ≤ ((weekdayColumn w1.val (28 + dN.val) k.val).get? n'.val).getD 0 ∧
      ((weekdayColumn w1.val (28 + dN.val) k.val).get? n'.val).getD 0
        ≤ 28 + dN.val ∧
      (w1.val + (((weekdayColumn w1.val (28 + dN.val) k.val).get?
        n'.val).getD 0 - 1)) % 7 = k.val ∧
      nthCountBefore w1.val (28 + dN.val) k.val
        (((weekdayColumn w1.val (28 + dN.val) k.val).get? n'.val).getD 0)
        = n'.val := by
  decide

theorem nthWeekdayDate_some {year month k n : Nat} {dte : Date}
    (h : nthWeekdayDate year month k n = some dte) :
    dte.y = year ∧ dte.m = month ∧
      (monthWeekdayDays year month k).get? (n - 1) = some dte.d := by
  unfold nthWeekdayDate at h
  by_cases hn : n ≤ (monthWeekdayDays year month k).length
  · rw [if_pos hn] at h
    rcases hg : (monthWeekdayDays year month k).get? (n - 1) with _ | d
    · rw [hg] at h; cases h
    · rw [hg] at h
      obtain ⟨dy, dm, dd⟩ := dte
      injection h with h'
      injection h' with e1 e2 e3
      subst e1; subst e2; subst e3
      exact ⟨rfl, rfl, rfl⟩
  · rw [if_neg hn] at h; cases h

theorem nthWeekdayDate_isSome {year month k n : Nat} (h1 : 1 ≤ n)
    (h2 : n ≤ (monthWeekdayDays year month k).length) :
    ∃ d, nthWeekdayDate year month k n = some ⟨year, month, d⟩ ∧
      (monthWeekdayDays year month k).get? (n - 1) = some d := by
  have hlt : n - 1 < (monthWeekdayDays year month k).length := by omega
  refine ⟨(monthWeekdayDays year month k).get ⟨n - 1, hlt⟩, ?_, ?_⟩
  · unfold nthWeekdayDate
    rw [if_pos h2, List.get?_eq_get hlt]
  · exact List.get?_eq_get hlt

theorem weekdayColumn_shape (w1 N k : Nat) (hw : w1 < 7) (hk : k < 7)
    (hN1 : 28 ≤ N) (hN2 : N ≤ 31) :
    4 ≤ (weekdayColumn w1 N k).length ∧
    (weekdayColumn w1 N k).length ≤ 5 ∧
    List.Pairwise (· < ·) (weekdayColumn w1 N k) := by
  have h := weekdayColumn_basic ⟨w1, hw⟩ ⟨N - 28, by omega⟩ ⟨k, hk⟩
  have h' : 4 ≤ (weekdayColumn w1 (28 + (N - 28)) k).length ∧
      (weekdayColumn w1 (28 + (N - 28)) k).length ≤ 5 ∧
      List.Pairwise (· < ·) (weekdayColumn w1 (28 + (N - 28)) k) := h
  have hN : 28 + (N - 28) = N := by omega
  rw [hN] at h'
  exact h'

theorem monthWeekdayDays_shape (y m k : Nat) (hm1 : 1 ≤ m) (hm2 : m ≤ 12)
    (hk : k < 7) :
    4 ≤ (monthWeekdayDays y m k).length ∧
    (monthWeekdayDays y m k).length ≤ 5 ∧
    List.Pairwise (· < ·) (monthWeekdayDays y m k) := by
  obtain ⟨hN1, hN2⟩ := monthLength_bounds y m hm1 hm2
  rw [monthWeekdayDays_eq y m k]
  exact weekdayColumn_shape (dayOfWeek y m 1) (monthLength y m) k
    (dayOfWeek_lt_seven y m 1) hk hN1 hN2

theorem cn_delivery_lt {y m : Nat} (hm1 : 1 ≤ m) (hm2 : m ≤ 12)
    {f o : Date} (hf : EngineCN.get_futures_delivery y m = some f)
    (ho : EngineCN.get_option_delivery y m = some o) : Date.lt f o := by
  obtain ⟨hfy, hfm, hfd⟩ := nthWeekdayDate_some hf
  obtain ⟨hoy, hom, hod⟩ := nthWeekdayDate_some ho
  obtain ⟨hN1, hN2⟩ := monthLength_bounds y m hm1 hm2
  have hfd' : (monthWeekdayDays y m 4).get? 2 = some f.d := hfd
  have hod' : (monthWeekdayDays y m 2).get? 3 = some o.d := hod
  rw [monthWeekdayDays_eq] at hfd' hod'
  have h := weekdayColumn_cn_lt ⟨dayOfWeek y m 1, dayOfWeek_lt_seven y m 1⟩
    ⟨monthLength y m - 28, by omega⟩
  have h' : ((weekdayColumn (dayOfWeek y m 1) (28 + (monthLength y m - 28))
        4).get? 2).getD 0 <
      ((weekdayColumn (dayOfWeek y m 1) (28 + (monthLength y m - 28))
        2).get? 3).getD 0 := h
  have hN : 28 + (monthLength y m - 28) = monthLength y m := by omega
  rw [hN, hfd', hod', Option.getD_some, Option.getD_some] at h'
  exact Or.inr ⟨hfy.trans hoy.symm, Or.inr ⟨hfm.trans hom.symm, h'⟩⟩

theorem jp_delivery_lt {y m : Nat} (hm1 : 1 ≤ m) (hm2 : m ≤ 12)
    {f o : Date} (hf : EngineJP.get_futures_delivery y m = some f)
    (ho : EngineJP.get_option_delivery y m = some o) : Date.lt f o := by
  obtain ⟨hfy, hfm, hfd⟩ := nthWeekdayDate_some hf
  obtain ⟨hoy, hom, hod⟩ := nthWeekdayDate_some ho
  obtain ⟨hN1, hN2⟩ := monthLength_bounds y m hm1 hm2
  have hfd' : (monthWeekdayDays y m 4).get? 1 = some f.d := hfd
  have hod' : (monthWeekdayDays y m 4).get? 2 = some o.d := hod
  rw [monthWeekdayDays_eq] at hfd' hod'
  have h := weekdayColumn_jp_lt ⟨dayOfWeek y m 1, dayOfWeek_lt_seven y m 1⟩
    ⟨monthLength y m - 28, by omega⟩
  have h' : ((weekdayColumn (dayOfWeek y m 1) (28 + (monthLength y m - 28))
        4).get? 1).getD 0 <
      ((weekdayColumn (dayOfWeek y m 1) (28 + (monthLength y m - 28))
        4).get? 2).getD 0 := h
  have hN : 28 + (monthLength y m - 28) = monthLength y m := by omega
  rw [hN, hfd', hod', Option.getD_some, Option.getD_some] at h'
  exact Or.inr ⟨hfy.trans hoy.symm, Or.inr ⟨hfm.trans hom.symm, h'⟩⟩

theorem monthPartition_spec {df : Series} {y m : Nat} {o : Obs}
    (h : o ∈ monthPartition df y m) :
    o ∈ df ∧ o.date.y = y ∧ o.date.m = m := by
  obtain ⟨h1, h2⟩ := List.mem_filter.1 h
  simp only [Bool.and_eq_true, beq_iff_eq] at h2
  exact ⟨h1, h2.1, h2.2⟩

theorem buyObs_mem {cfg : ExpiryConfig} {year : Nat} {br : BuyRule}
    {df : Series} {m : Nat} {b : Obs}
    (h : buyObs cfg year br df m = some b) :
    b ∈ monthPartition df year m := by
  unfold buyObs at h
  rcases hp : monthPartition df year m with _ | ⟨x, xs⟩
  · rw [hp] at h; cases h
  · rw [hp] at h
    rw [hp] at *
    cases br with
    | monthEnd =>
      injection h with h'
      rw [← h']; exact List.getLast_mem _
    | futures =>
      rcases hf : cfg.futuresDelivery year m with _ | t
      · rw [hf] at h; cases h
      · rw [hf] at h
        injection h with h'
        rw [← h']; exact argminFirst_mem _ x xs
    | optionDeliv =>
      rcases hf : cfg.optionDelivery year m with _ | t
      · rw [hf] at h; cases h
      · rw [hf] at h
        injection h with h'
        rw [← h']; exact argminFirst_mem _ x xs

theorem buyObs_futures_min {cfg : ExpiryConfig} {year : Nat} {df : Series}
    {m : Nat} {b : Obs} {t : Date} (hf : cfg.futuresDelivery year m = some t)
    (h : buyObs cfg year .futures df m = some b) :
    ∀ o ∈ monthPartition df year m, distDays b.date t ≤ distDays o.date t := by
  rcases hp : monthPartition df year m with _ | ⟨x, xs⟩
  · simp [buyObs, hp] at h
  · simp only [buyObs, hp, hf, Option.some.injEq] at h
    subst h
    intro o ho
    have hx := argminFirst_le (fun o => distDays o.date t) x xs o ho
    exact hx

theorem buyObs_option_min {cfg : ExpiryConfig} {year : Nat} {df : Series}
    {m : Nat} {b : Obs} {t : Date} (hf : cfg.optionDelivery year m = some t)
    (h : buyObs cfg year .optionDeliv df m = some b) :
    ∀ o ∈ monthPartition df year m, distDays b.date t ≤ distDays o.date t := by
  rcases hp : monthPartition df year m with _ | ⟨x, xs⟩
  · simp [buyObs, hp] at h
  · simp only [buyObs, hp, hf, Option.some.injEq] at h
    subst h
    intro o ho
    have hx := argminFirst_le (fun o => distDays o.date t) x xs o ho
    exact hx

theorem sellObs_mem {year : Nat} {sr : SellRule} {df : Series} {m : Nat}
    {s : Obs} (h : sellObs year sr df m = some s) :
    s ∈ monthPartition df (nextYM year m).1 (nextYM year m).2 := by
  unfold sellObs at h
  rcases hp : monthPartition df (nextYM year m).1 (nextYM year m).2
    with _ | ⟨x, xs⟩
  · rw [hp] at h; cases h
  · rw [hp] at h
    cases sr with
    | firstDay =>
      injection h with h'
      rw [← h']; exact List.mem_cons_self _ _
    | mid15 =>
      injection h with h'
      rw [← h']; exact argminFirst_mem _ x xs

theorem sellObs_firstDay_earliest {year : Nat} {df : Series} {m : Nat}
    {s : Obs}
    (hs : df.Pairwise (fun a b => Date.lt a.date b.date))
    (h : sellObs year .firstDay df m = some s) :
    ∀ o ∈ monthPartition df (nextYM year m).1 (nextYM year m).2,
      s = o ∨ Date.lt s.date o.date := by
  unfold sellObs at h
  have hpart : (monthPartition df (nextYM year m).1
      (nextYM year m).2).Pairwise (fun a b => Date.lt a.date b.date) :=
    List.Pairwise.filter _ hs
  rcases hp : monthPartition df (nextYM year m).1 (nextYM year m).2
    with _ | ⟨x, xs⟩
  · rw [hp] at h; cases h
  · rw [hp] at h
    rw [hp] at hpart
    injection h with h'
    subst h'
    intro o ho
    rcases List.mem_cons.1 ho with rfl | ho'
    · exact Or.inl rfl
    · exact Or.inr (List.rel_of_pairwise_cons hpart ho')

theorem sellObs_mid15_min {year : Nat} {df : Series} {m : Nat} {s : Obs}
    (h : sellObs year .mid15 df m = some s) :
    ∀ o ∈ monthPartition df (nextYM year m).1 (nextYM year m).2,
      distDays s.date ⟨(nextYM year m).1, (nextYM year m).2, 15⟩ ≤
        distDays o.date ⟨(nextYM year m).1, (nextYM year m).2, 15⟩ := by
  unfold sellObs at h
  rcases hp : monthPartition df (nextYM year m).1 (nextYM year m).2
    with _ | ⟨x, xs⟩
  · rw [hp] at h; cases h
  · rw [hp] at h
    injection h with h'
    intro o ho
    have hx := argminFirst_le
      (fun o => distDays o.date ⟨(nextYM year m).1, (nextYM year m).2, 15⟩)
      x xs o ho
    rw [h'] at hx
    exact hx

theorem tradeForMonth_eq_some {cfg : ExpiryConfig} {year : Nat}
    {br : BuyRule} {sr : SellRule} {df : Series} {m : Nat} {t : Trade}
    (h : tradeForMonth cfg year br sr df m = some t) :
    ∃ b s, buyObs cfg year br df m = some b ∧
      sellObs year sr df m = some s ∧ s.close ≠ 0 ∧
      Date.lt b.date s.date ∧ t = ⟨m, b, s, s.close - b.close⟩ := by
  unfold tradeForMonth at h
  rcases hb : buyObs cfg year br df m with _ | b
  · rw [hb] at h; cases h
  · rw [hb] at h
    rcases hs : sellObs year sr df m with _ | s
    · rw [hs] at h; cases h
    · rw [hs] at h
      have h2 : (if s.close ≠ 0 ∧ Date.lt b.date s.date then
          some (⟨m, b, s, s.close - b.close⟩ : Trade) else none) = some t := h
      by_cases hc : s.close ≠ 0 ∧ Date.lt b.date s.date
      · rw [if_pos hc] at h2
        injection h2 with h'
        exact ⟨b, s, rfl, rfl, hc.1, hc.2, h'.symm⟩
      · rw [if_neg hc] at h2; cases h2

theorem tradeForMonth_none_of_not_lt {cfg : ExpiryConfig} {year : Nat}
    {br : BuyRule} {sr : SellRule} {df : Series} {m : Nat} {b s : Obs}
    (hb : buyObs cfg year br df m = some b)
    (hs : sellObs year sr df m = some s)
    (hlt : ¬ Date.lt b.date s.date) :
    tradeForMonth cfg year br sr df m = none := by
  unfold tradeForMonth
  rw [hb, hs]
  show (if s.close ≠ 0 ∧ Date.lt b.date s.date then
      some (⟨m, b, s, s.close - b.close⟩ : Trade) else none) = none
  rw [if_neg (fun hc => hlt hc.2)]

/-- C1: for a non-empty series (ascending, unique dates) and any target,
`get_nearest_price_info` returns an observation whose date is in the
series, with no other observation at strictly smaller absolute distance
to the target; on an exact distance tie the earlier date is returned;
and the reported day offset is the signed difference
actual_date - target_date. -/
theorem get_nearest_price_info_cons (target : Int) (x : Int × ℚ)
    (xs : List (Int × ℚ)) :
    get_nearest_price_info target (x :: xs) =
      some ((argminFirst (fun r => (r.1 - target).natAbs) x xs).1,
        (argminFirst (fun r => (r.1 - target).natAbs) x xs).2,
        (argminFirst (fun r => (r.1 - target).natAbs) x xs).1 - target,
        offsetNote
          ((argminFirst (fun r => (r.1 - target).natAbs) x xs).1 - target)) :=
  rfl

theorem claim_C1_nearest_resolver (target : Int) (df : List (Int × ℚ))
    (hne : df ≠ [])
    (hsorted : df.Pairwise (fun p q => p.1 < q.1)) :
    ∃ a p, get_nearest_price_info target df =
        some (a, p, a - target, offsetNote (a - target)) ∧
      (a, p) ∈ df ∧
      (∀ q ∈ df, (a - target).natAbs ≤ (q.1 - target).natAbs) ∧
      (∀ q ∈ df, (q.1 - target).natAbs = (a - target).natAbs → a ≤ q.1) := by
  match df, hne, hsorted with
  | x :: xs, _, hsorted =>
    have hmem := argminFirst_mem (fun r => (r.1 - target).natAbs) x xs
    refine ⟨(argminFirst (fun r => (r.1 - target).natAbs) x xs).1,
      (argminFirst (fun r => (r.1 - target).natAbs) x xs).2,
      get_nearest_price_info_cons target x xs, hmem, ?_, ?_⟩
    · intro q hq
      have hx := argminFirst_le (fun r => (r.1 - target).natAbs) x xs q hq
      exact hx
    · intro q hq htie
      have hx := argminFirst_tie_first (fun r => (r.1 - target).natAbs)
        (fun r r' => r.1 < r'.1) x xs hsorted q hq htie
      rcases hx with hx | hx
      · rw [hx]
      · exact Int.le_of_lt hx

/-- Witness for C1: the spec's two concrete scenarios — target
2024-01-14 (day 14) in the series {12, 15, 16} resolves to day 15 with
offset +1, and the equidistant target 15 in {13, 17} resolves to the
earlier day 13. -/
theorem claim_C1_nearest_resolver_witness :
    (∃ a p,
      get_nearest_price_info 14 [((12 : Int), (10 : ℚ)), (15, 11), (16, 12)] =
          some (a, p, a - 14, offsetNote (a - 14)) ∧
        (a, p) ∈ [((12 : Int), (10 : ℚ)), (15, 11), (16, 12)] ∧
        (∀ q ∈ [((12 : Int), (10 : ℚ)), (15, 11), (16, 12)],
          (a - 14).natAbs ≤ (q.1 - 14).natAbs) ∧
        (∀ q ∈ [((12 : Int), (10 : ℚ)), (15, 11), (16, 12)],
          (q.1 - 14).natAbs = (a - 14).natAbs → a ≤ q.1)) ∧
    get_nearest_price_info 14 [((12 : Int), (10 : ℚ)), (15, 11), (16, 12)] =
      some (15, 11, 1, offsetNote 1) ∧
    get_nearest_price_info 15 [((13 : Int), (10 : ℚ)), (17, 12)] =
      some (13, 10, -2, offsetNote (-2)) :=
  ⟨claim_C1_nearest_resolver 14 [((12 : Int), (10 : ℚ)), (15, 11), (16, 12)]
      (by decide) (by decide),
    by decide, by decide⟩

/-- C9: on an empty (or absent, which reaches the same `df is None or
df.empty` branch) series the resolver returns the no-data outcome for
every target and never fails; this is distinct from a successful
resolution with a large offset, as the second conjunct illustrates
(offset -1000, still a `some`). -/
theorem claim_C9_empty_series (target : Int) :
    get_nearest_price_info target [] = none ∧
    get_nearest_price_info 1000 [((0 : Int), (5 : ℚ))] =
      some (0, 5, -1000, offsetNote (-1000)) :=
  ⟨rfl, by decide⟩

theorem runBacktest_mem {cfg : ExpiryConfig} {year : Nat} {br : BuyRule}
    {sr : SellRule} {df : Series} {t : Trade}
    (h : t ∈ runBacktest cfg year br sr df) :
    ∃ m, 1 ≤ m ∧ m ≤ 12 ∧ tradeForMonth cfg year br sr df m = some t := by
  unfold runBacktest at h
  obtain ⟨i, hi, hfm⟩ := List.mem_filterMap.1 h
  have hi' := List.mem_range.1 hi
  exact ⟨i + 1, by omega, by omega, hfm⟩

theorem runBacktest_months_pairwise (cfg : ExpiryConfig) (year : Nat)
    (br : BuyRule) (sr : SellRule) (df : Series) :
    ((runBacktest cfg year br sr df).map Trade.month).Pairwise (· < ·) := by
  unfold runBacktest
  rw [List.pairwise_map]
  refine List.Pairwise.filterMap
    (fun i => tradeForMonth cfg year br sr df (i + 1)) ?_
    (List.pairwise_lt_range 12)
  intro a a' haa' ta hta ta' hta'
  obtain ⟨b1, s1, _, _, _, _, ht1⟩ :=
    tradeForMonth_eq_some (Option.mem_def.1 hta)
  obtain ⟨b2, s2, _, _, _, _, ht2⟩ :=
    tradeForMonth_eq_some (Option.mem_def.1 hta')
  rw [ht1, ht2]
  show a + 1 < a' + 1
  omega

/-- C3: every emitted trade has sell date strictly after buy date and
profit = sell price - buy price (with the month label within 1..12); the
ledger's month values are strictly increasing; and a month whose
resolutions violate the ordering yields no trade (and, the functions
being total, no error). -/
theorem claim_C3_trade_invariants (cfg : ExpiryConfig) (year : Nat)
    (br : BuyRule) (sr : SellRule) (df : Series) :
    (∀ t ∈ runBacktest cfg year br sr df,
      Date.lt t.buy.date t.sell.date ∧
      t.profit = t.sell.close - t.buy.close ∧
      1 ≤ t.month ∧ t.month ≤ 12) ∧
    ((runBacktest cfg year br sr df).map Trade.month).Pairwise (· < ·) ∧
    (∀ m b s, buyObs cfg year br df m = some b →
      sellObs year sr df m = some s → ¬ Date.lt b.date s.date →
      tradeForMonth cfg year br sr df m = none) := by
  refine ⟨?_, runBacktest_months_pairwise cfg year br sr df,
    fun m b s hb hs hnlt => tradeForMonth_none_of_not_lt hb hs hnlt⟩
  intro t ht
  obtain ⟨m, hm1, hm2, hfm⟩ := runBacktest_mem ht
  obtain ⟨b, s, hb, hs, hcz, hlt, hteq⟩ := tradeForMonth_eq_some hfm
  subst hteq
  exact ⟨hlt, rfl, hm1, hm2⟩

/-- Witness for C3 on a concrete 2024 series: the single emitted trade
(January: buy at the month end 2024-01-31, sell at the first trading day
2024-02-01) satisfies the invariants. -/
theorem claim_C3_trade_invariants_witness :
    Date.lt (Trade.mk 1 ⟨⟨2024, 1, 31⟩, 11⟩ ⟨⟨2024, 2, 1⟩, 12⟩
        ((12 : ℚ) - 11)).buy.date
      (Trade.mk 1 ⟨⟨2024, 1, 31⟩, 11⟩ ⟨⟨2024, 2, 1⟩, 12⟩
        ((12 : ℚ) - 11)).sell.date ∧
    (Trade.mk 1 ⟨⟨2024, 1, 31⟩, 11⟩ ⟨⟨2024, 2, 1⟩, 12⟩
        ((12 : ℚ) - 11)).profit =
      (Trade.mk 1 ⟨⟨2024, 1, 31⟩, 11⟩ ⟨⟨2024, 2, 1⟩, 12⟩
        ((12 : ℚ) - 11)).sell.close -
      (Trade.mk 1 ⟨⟨2024, 1, 31⟩, 11⟩ ⟨⟨2024, 2, 1⟩, 12⟩
        ((12 : ℚ) - 11)).buy.close ∧
    1 ≤ (Trade.mk 1 ⟨⟨2024, 1, 31⟩, 11⟩ ⟨⟨2024, 2, 1⟩, 12⟩
        ((12 : ℚ) - 11)).month ∧
    (Trade.mk 1 ⟨⟨2024, 1, 31⟩, 11⟩ ⟨⟨2024, 2, 1⟩, 12⟩
        ((12 : ℚ) - 11)).month ≤ 12 :=
  (claim_C3_trade_invariants cnConfig 2024 .monthEnd .firstDay
      [⟨⟨2024, 1, 30⟩, 10⟩, ⟨⟨2024, 1, 31⟩, 11⟩,
       ⟨⟨2024, 2, 1⟩, 12⟩, ⟨⟨2024, 2, 15⟩, 13⟩]).1
    (Trade.mk 1 ⟨⟨2024, 1, 31⟩, 11⟩ ⟨⟨2024, 2, 1⟩, 12⟩ ((12 : ℚ) - 11))
    ((show runBacktest cnConfig 2024 .monthEnd .firstDay
        [⟨⟨2024, 1, 30⟩, 10⟩, ⟨⟨2024, 1, 31⟩, 11⟩,
         ⟨⟨2024, 2, 1⟩, 12⟩, ⟨⟨2024, 2, 15⟩, 13⟩] =
        [Trade.mk 1 ⟨⟨2024, 1, 31⟩, 11⟩ ⟨⟨2024, 2, 1⟩, 12⟩ ((12 : ℚ) - 11)]
        from rfl).symm ▸ List.mem_cons_self _ _)

/-- C2: in the backtest loop the buy anchor is resolved only against the
(year, m) partition (membership, month-tagging of the partition, and
minimal distance to the delivery date for the two nearest-resolution buy
rules), and the sell anchor only against the following month's partition
(wrapping to January of year+1 after December); under "first trading day
of next month" the sell observation is the earliest observation of that
partition (not a nearest-date resolution), and under "15th of next
month" it is the nearest-date resolution of the 15th within the
partition. -/
theorem claim_C2_month_partition_resolution (cfg : ExpiryConfig)
    (year : Nat) (br : BuyRule) (sr : SellRule) (df : Series) (m : Nat) :
    (∀ o ∈ monthPartition df year m,
      o ∈ df ∧ o.date.y = year ∧ o.date.m = m) ∧
    (nextYM year m = if m < 12 then (year, m + 1) else (year + 1, 1)) ∧
    (∀ b, buyObs cfg year br df m = some b → b ∈ monthPartition df year m) ∧
    (∀ t b, cfg.futuresDelivery year m = some t →
      buyObs cfg year .futures df m = some b →
      ∀ o ∈ monthPartition df year m,
        distDays b.date t ≤ distDays o.date t) ∧
    (∀ t b, cfg.optionDelivery year m = some t →
      buyObs cfg year .optionDeliv df m = some b →
      ∀ o ∈ monthPartition df year m,
        distDays b.date t ≤ distDays o.date t) ∧
    (∀ s, sellObs year sr df m = some s →
      s ∈ monthPartition df (nextYM year m).1 (nextYM year m).2) ∧
    (df.Pairwise (fun a b => Date.lt a.date b.date) →
      ∀ s, sellObs year .firstDay df m = some s →
      ∀ o ∈ monthPartition df (nextYM year m).1 (nextYM year m).2,
        s = o ∨ Date.lt s.date o.date) ∧
    (∀ s, sellObs year .mid15 df m = some s →
      ∀ o ∈ monthPartition df (nextYM year m).1 (nextYM year m).2,
        distDays s.date ⟨(nextYM year m).1, (nextYM year m).2, 15⟩ ≤
          distDays o.date ⟨(nextYM year m).1, (nextYM year m).2, 15⟩) :=
  ⟨fun o ho => monthPartition_spec ho, rfl,
    fun b hb => buyObs_mem hb,
    fun t b ht hb => buyObs_futures_min ht hb,
    fun t b ht hb => buyObs_option_min ht hb,
    fun s hs => sellObs_mem hs,
    fun hp s hs => sellObs_firstDay_earliest hp hs,
    fun s hs => sellObs_mid15_min hs⟩

/-- Witness for C2 on a concrete 2024 series with the "first trading day
of next month" sell rule for January: the sell observation 2024-02-01 is
the earliest observation of the February partition (here compared with
the other February observation 2024-02-15). -/
theorem claim_C2_month_partition_resolution_witness :
    (Obs.mk ⟨2024, 2, 1⟩ 12 = Obs.mk ⟨2024, 2, 15⟩ 13 ∨
      Date.lt (Obs.mk ⟨2024, 2, 1⟩ 12).date (Obs.mk ⟨2024, 2, 15⟩ 13).date) ∧
    Obs.mk ⟨2024, 1, 31⟩ 11 ∈
      monthPartition [⟨⟨2024, 1, 30⟩, 10⟩, ⟨⟨2024, 1, 31⟩, 11⟩,
        ⟨⟨2024, 2, 1⟩, 12⟩, ⟨⟨2024, 2, 15⟩, 13⟩] 2024 1 :=
  ⟨(claim_C2_month_partition_resolution cnConfig 2024 .monthEnd .firstDay
      [⟨⟨2024, 1, 30⟩, 10⟩, ⟨⟨2024, 1, 31⟩, 11⟩,
       ⟨⟨2024, 2, 1⟩, 12⟩, ⟨⟨2024, 2, 15⟩, 13⟩] 1).2.2.2.2.2.2.1
      (by decide) (Obs.mk ⟨2024, 2, 1⟩ 12) (by decide)
      (Obs.mk ⟨2024, 2, 15⟩ 13) (by decide),
    (claim_C2_month_partition_resolution cnConfig 2024 .monthEnd .firstDay
      [⟨⟨2024, 1, 30⟩, 10⟩, ⟨⟨2024, 1, 31⟩, 11⟩,
       ⟨⟨2024, 2, 1⟩, 12⟩, ⟨⟨2024, 2, 15⟩, 13⟩] 1).2.2.1
      (Obs.mk ⟨2024, 1, 31⟩ 11) (by decide)⟩

/-- C4: on a non-empty ledger the metrics are: initial cost = first
trade's buy price; total profit = sum of profits; strategy yield (pct) =
total profit / initial cost * 100; hold ratio (pct) = last trade's sell
price / initial cost * 100 (a ratio of original capital); hold yield
(pct) = hold ratio - 100, which coincides with the (last/first - 1)*100
form displayed by src/engine_cn.py. -/
theorem claim_C4_metrics (ts : List Trade) (t0 tl : Trade)
    (h0 : ts.head? = some t0) (hl : ts.getLast? = some tl) :
    ∃ mt, backtestMetrics ts = some mt ∧
      mt.initial_cost = t0.buy.close ∧
      mt.total_profit = (ts.map Trade.profit).sum ∧
      mt.strategy_yield_pct = mt.total_profit / mt.initial_cost * 100 ∧
      mt.hold_ratio_pct = tl.sell.close / mt.initial_cost * 100 ∧
      mt.hold_yield_pct = mt.hold_ratio_pct - 100 ∧
      mt.hold_yield_pct = (tl.sell.close / mt.initial_cost - 1) * 100 := by
  refine ⟨⟨t0.buy.close, (ts.map Trade.profit).sum,
    (ts.map Trade.profit).sum / t0.buy.close * 100,
    tl.sell.close / t0.buy.close * 100,
    tl.sell.close / t0.buy.close * 100 - 100⟩, ?_, rfl, rfl, rfl, rfl, rfl, ?_⟩
  · unfold backtestMetrics
    rw [h0, hl]
  · show tl.sell.close / t0.buy.close * 100 - 100 =
      (tl.sell.close / t0.buy.close - 1) * 100
    ring

/-- Witness for C4: a single-trade ledger with buy price 100 and profit
10 yields strategy_yield_pct = 10, hold_ratio_pct = 110 and
hold_yield_pct = 10. -/
theorem claim_C4_metrics_witness :
    ∃ mt, backtestMetrics
        [Trade.mk 1 ⟨⟨2024, 1, 31⟩, 100⟩ ⟨⟨2024, 2, 15⟩, 110⟩ 10] =
          some mt ∧
      mt.initial_cost = 100 ∧ mt.total_profit = 10 ∧
      mt.strategy_yield_pct = 10 ∧ mt.hold_ratio_pct = 110 ∧
      mt.hold_yield_pct = 10 := by
  obtain ⟨mt, hmt, h1, h2, h3, h4, h5, h6⟩ := claim_C4_metrics
    [Trade.mk 1 ⟨⟨2024, 1, 31⟩, 100⟩ ⟨⟨2024, 2, 15⟩, 110⟩ 10]
    (Trade.mk 1 ⟨⟨2024, 1, 31⟩, 100⟩ ⟨⟨2024, 2, 15⟩, 110⟩ 10)
    (Trade.mk 1 ⟨⟨2024, 1, 31⟩, 100⟩ ⟨⟨2024, 2, 15⟩, 110⟩ 10) rfl rfl
  have hc : mt.initial_cost = 100 := h1
  have hp : mt.total_profit = 10 := by
    rw [h2]; simp [List.map_cons, List.sum_cons]
  refine ⟨mt, hmt, hc, hp, ?_, ?_, ?_⟩
  · rw [h3, hp, hc]; norm_num
  · rw [h4, hc]; norm_num
  · rw [h5, h4, hc]; norm_num

/-- C5: when no month yields a valid buy/sell pair — here, whenever no
observation is dated in the backtest year, which covers both the empty
series and a future backtest year — the ledger is empty and the metrics
computation reports the explicit no-metrics outcome (`none`): no
aggregate is computed, so no division by a first buy price occurs. -/
theorem claim_C5_insufficient_data (cfg : ExpiryConfig) (year : Nat)
    (br : BuyRule) (sr : SellRule) (df : Series)
    (h : ∀ o ∈ df, o.date.y ≠ year) :
    runBacktest cfg year br sr df = [] ∧
    backtestMetrics (runBacktest cfg year br sr df) = none := by
  have hpart : ∀ m, monthPartition df year m = [] := by
    intro m
    apply List.filter_eq_nil_iff.2
    intro o ho hp0
    rw [Bool.and_eq_true, beq_iff_eq, beq_iff_eq] at hp0
    exact h o ho hp0.1
  have hbuy : ∀ m, buyObs cfg year br df m = none := by
    intro m
    unfold buyObs
    rw [hpart m]
  have htfm : ∀ m, tradeForMonth cfg year br sr df m = none := by
    intro m
    unfold tradeForMonth
    rw [hbuy m]
  have hrun : runBacktest cfg year br sr df = [] := by
    unfold runBacktest
    exact List.filterMap_eq_nil.2 (fun i _ => htfm (i + 1))
  exact ⟨hrun, by rw [hrun]; rfl⟩

/-- Witness for C5: a series entirely dated in 2023 backtested for 2024
produces the empty ledger and no metrics (and the empty series is the
degenerate case of the same hypothesis). -/
theorem claim_C5_insufficient_data_witness :
    runBacktest cnConfig 2024 .monthEnd .firstDay
        [⟨⟨2023, 5, 10⟩, 50⟩] = [] ∧
      backtestMetrics (runBacktest cnConfig 2024 .monthEnd .firstDay
        [⟨⟨2023, 5, 10⟩, 50⟩]) = none :=
  claim_C5_insufficient_data cnConfig 2024 .monthEnd .firstDay
    [⟨⟨2023, 5, 10⟩, 50⟩] (by decide)

/-- C7: the anchor sequence of the basic-query loop never contains an
anchor whose target date is strictly after "now": the `if dt <= today:`
filter keeps exactly the anchors with target ≤ today. -/
theorem claim_C7_no_future_anchor (cfg : ExpiryConfig) (year : Nat)
    (mode : Mode) (today : Date) :
    ∀ a ∈ generateAnchors cfg year mode today, Date.le a.2 today := by
  intro a ha
  unfold generateAnchors at ha
  obtain ⟨l, hl, hal⟩ := List.mem_flatten.1 ha
  obtain ⟨i, hi, rfl⟩ := List.mem_map.1 hl
  exact of_decide_eq_true (List.mem_filter.1 hal).2

/-- Witness for C7: with "now" = 2024-03-20, the generated mid-January
anchor indeed satisfies target ≤ now. -/
theorem claim_C7_no_future_anchor_witness :
    Date.le ("月中", Date.mk 2024 1 15).2 ⟨2024, 3, 20⟩ :=
  claim_C7_no_future_anchor cnConfig 2024 .A ⟨2024, 3, 20⟩
    ("月中", ⟨2024, 1, 15⟩) (by decide)

theorem config_wf_of_nth {fk fn ok oc : Nat}
    {fdel odel : Nat → Nat → Option Date}
    (hfd : ∀ y m, fdel y m = nthWeekdayDate y m fk fn)
    (hod : ∀ y m, odel y m = nthWeekdayDate y m ok oc) :
    ∀ y' m' dte, (fdel y' m' = some dte ∨ odel y' m' = some dte) →
      dte.y = y' ∧ dte.m = m' := by
  intro y' m' dte h
  rcases h with h | h
  · rw [hfd] at h
    exact ⟨(nthWeekdayDate_some h).1, (nthWeekdayDate_some h).2.1⟩
  · rw [hod] at h
    exact ⟨(nthWeekdayDate_some h).1, (nthWeekdayDate_some h).2.1⟩

theorem cnConfig_wf : ∀ y' m' dte,
    (cnConfig.futuresDelivery y' m' = some dte ∨
      cnConfig.optionDelivery y' m' = some dte) →
    dte.y = y' ∧ dte.m = m' :=
  config_wf_of_nth (fun _ _ => rfl) (fun _ _ => rfl)

theorem jpConfig_wf : ∀ y' m' dte,
    (jpConfig.futuresDelivery y' m' = some dte ∨
      jpConfig.optionDelivery y' m' = some dte) →
    dte.y = y' ∧ dte.m = m' :=
  config_wf_of_nth (fun _ _ => rfl) (fun _ _ => rfl)

theorem anchorsForMonth_ym (cfg : ExpiryConfig) (year : Nat) (mode : Mode)
    (m : Nat)
    (hwf : ∀ y' m' dte, (cfg.futuresDelivery y' m' = some dte ∨
      cfg.optionDelivery y' m' = some dte) → dte.y = y' ∧ dte.m = m') :
    ∀ a ∈ anchorsForMonth cfg year mode m, a.2.y = year ∧ a.2.m = m := by
  intro a ha
  cases mode with
  | A =>
    simp only [anchorsForMonth, List.mem_cons, List.not_mem_nil,
      or_false] at ha
    rcases ha with rfl | rfl
    · exact ⟨rfl, rfl⟩
    · exact ⟨rfl, rfl⟩
  | B =>
    simp only [anchorsForMonth] at ha
    rcases List.mem_append.1 ha with ha' | ha'
    · rcases hf : cfg.futuresDelivery year m with _ | f
      · rw [hf] at ha'; cases ha'
      · rw [hf] at ha'
        rcases List.mem_cons.1 ha' with rfl | ha''
        · exact hwf year m f (Or.inl hf)
        · cases ha''
    · rcases ho : cfg.optionDelivery year m with _ | o
      · rw [ho] at ha'; cases ha'
      · rw [ho] at ha'
        rcases List.mem_cons.1 ha' with rfl | ha''
        · exact hwf year m o (Or.inr ho)
        · cases ha''

theorem anchorsForMonth_pairwise (cfg : ExpiryConfig) (year : Nat)
    (mode : Mode) (m : Nat) (hm1 : 1 ≤ m) (hm2 : m ≤ 12)
    (hord : ∀ f o, cfg.futuresDelivery year m = some f →
      cfg.optionDelivery year m = some o → Date.lt f o) :
    (anchorsForMonth cfg year mode m).Pairwise
      (fun a b => Date.lt a.2 b.2) := by
  cases mode with
  | A =>
    have h28 := (monthLength_bounds year m hm1 hm2).1
    refine List.pairwise_cons.2 ⟨?_, List.pairwise_singleton _ _⟩
    intro a' ha'
    rcases List.mem_cons.1 ha' with rfl | ha''
    · have hlt : Date.lt (get_mid_month year m) (get_month_end year m) :=
        Or.inr ⟨rfl, Or.inr ⟨rfl, by
          show (15 : Nat) < monthLength year m
          omega⟩⟩
      exact hlt
    · cases ha''
  | B =>
    rcases hf : cfg.futuresDelivery year m with _ | f <;>
      rcases ho : cfg.optionDelivery year m with _ | o <;>
      simp only [anchorsForMonth, hf, ho, List.nil_append, List.append_nil,
        List.cons_append, List.nil_append]
    · exact List.Pairwise.nil
    · exact List.pairwise_singleton _ _
    · exact List.pairwise_singleton _ _
    · refine List.pairwise_cons.2 ⟨?_, List.pairwise_singleton _ _⟩
      intro a' ha'
      rcases List.mem_cons.1 ha' with rfl | ha''
      · exact hord f o hf ho
      · cases ha''

theorem generateAnchors_pairwise (cfg : ExpiryConfig) (year : Nat)
    (mode : Mode) (today : Date)
    (hwf : ∀ y' m' dte, (cfg.futuresDelivery y' m' = some dte ∨
      cfg.optionDelivery y' m' = some dte) → dte.y = y' ∧ dte.m = m')
    (hord : ∀ m f o, 1 ≤ m → m ≤ 12 →
      cfg.futuresDelivery year m = some f →
      cfg.optionDelivery year m = some o → Date.lt f o) :
    (generateAnchors cfg year mode today).Pairwise
      (fun a b => Date.lt a.2 b.2) := by
  unfold generateAnchors
  rw [List.pairwise_flatten]
  constructor
  · intro l hl
    obtain ⟨i, hi, rfl⟩ := List.mem_map.1 hl
    have hi' := List.mem_range.1 hi
    exact List.Pairwise.filter _
      (anchorsForMonth_pairwise cfg year mode (i + 1) (by omega) (by omega)
        (fun f o hf ho => hord (i + 1) f o (by omega) (by omega) hf ho))
  · rw [List.pairwise_map]
    refine List.Pairwise.imp ?_ (List.pairwise_lt_range 12)
    intro i j hij x hx y hy
    have hxm := anchorsForMonth_ym cfg year mode (i + 1) hwf x
      (List.mem_filter.1 hx).1
    have hym := anchorsForMonth_ym cfg year mode (j + 1) hwf y
      (List.mem_filter.1 hy).1
    refine Or.inr ⟨hxm.1.trans hym.1.symm, Or.inl ?_⟩
    omega

/-- C8: for every year, mode and "now", the emitted anchor sequence of
both market variants is strictly ascending by target date; within a
month, the 15th precedes the month end (calendar-midpoint mode) and the
first configured expiry precedes the second (3rd Friday before 4th
Wednesday for the CN variant, 2nd Friday before 3rd Friday for the JP
variant); and every anchor of month m precedes every anchor of any later
month. -/
theorem claim_C8_anchors_sorted (year : Nat) (mode : Mode) (today : Date) :
    (generateAnchors cnConfig year mode today).Pairwise
      (fun a b => Date.lt a.2 b.2) ∧
    (generateAnchors jpConfig year mode today).Pairwise
      (fun a b => Date.lt a.2 b.2) ∧
    (∀ y m, 1 ≤ m → m ≤ 12 →
      Date.lt (get_mid_month y m) (get_month_end y m)) ∧
    (∀ y m f o, 1 ≤ m → m ≤ 12 →
      EngineCN.get_futures_delivery y m = some f →
      EngineCN.get_option_delivery y m = some o → Date.lt f o) ∧
    (∀ y m f o, 1 ≤ m → m ≤ 12 →
      EngineJP.get_futures_delivery y m = some f →
      EngineJP.get_option_delivery y m = some o → Date.lt f o) := by
  refine ⟨?_, ?_, ?_, ?_, ?_⟩
  · exact generateAnchors_pairwise cnConfig year mode today cnConfig_wf
      (fun m f o hm1 hm2 hf ho => cn_delivery_lt hm1 hm2 hf ho)
  · exact generateAnchors_pairwise jpConfig year mode today jpConfig_wf
      (fun m f o hm1 hm2 hf ho => jp_delivery_lt hm1 hm2 hf ho)
  · intro y m hm1 hm2
    have h28 := (monthLength_bounds y m hm1 hm2).1
    exact Or.inr ⟨rfl, Or.inr ⟨rfl, by
      show (15 : Nat) < monthLength y m
      omega⟩⟩
  · exact fun y m f o hm1 hm2 hf ho => cn_delivery_lt hm1 hm2 hf ho
  · exact fun y m f o hm1 hm2 hf ho => jp_delivery_lt hm1 hm2 hf ho

/-- Witness for C8: mid-January 2024 precedes the January 2024 month
end. -/
theorem claim_C8_anchors_sorted_witness :
    Date.lt (get_mid_month 2024 1) (get_month_end 2024 1) :=
  (claim_C8_anchors_sorted 2024 .A ⟨2024, 12, 31⟩).2.2.1 2024 1
    (by norm_num) (by norm_num)

theorem isNth_count_eq (y m k d : Nat) :
    (((List.range (monthLength y m)).map (· + 1)).filter
      (fun e => decide (e < d) && (dayOfWeek y m e == k))).length =
    nthCountBefore (dayOfWeek y m 1) (monthLength y m) k d := by
  unfold nthCountBefore
  congr 1
  apply List.filter_congr
  intro e he
  have he1 : 1 ≤ e := by
    rcases List.mem_map.1 he with ⟨i, _, rfl⟩
    omega
  rw [dayOfWeek_shift y m e he1]

/-- C6: whenever month (y, m) has at least `n` occurrences of weekday
`k`, the Nth-weekday rule returns the date that is in fact the n-th
occurrence of that weekday, independently verified by iterating the
month's days; concretely the 3rd-Friday rule for (2024, 1) returns
2024-01-19. -/
theorem claim_C6_nth_weekday (y m k n : Nat) (hm1 : 1 ≤ m) (hm2 : m ≤ 12)
    (hk : k < 7) (hn1 : 1 ≤ n)
    (hn2 : n ≤ (monthWeekdayDays y m k).length) :
    (∃ d, nthWeekdayDate y m k n = some ⟨y, m, d⟩ ∧
      isNthWeekdayOfMonth y m k n d) ∧
    EngineCN.get_futures_delivery 2024 1 = some ⟨2024, 1, 19⟩ := by
  constructor
  · obtain ⟨d, hd, hget⟩ := nthWeekdayDate_isSome hn1 hn2
    refine ⟨d, hd, ?_⟩
    obtain ⟨hN1, hN2⟩ := monthLength_bounds y m hm1 hm2
    have hlen5 := (monthWeekdayDays_shape y m k hm1 hm2 hk).2.1
    have hget' : (weekdayColumn (dayOfWeek y m 1) (monthLength y m) k).get?
        (n - 1) = some d := by
      rw [← monthWeekdayDays_eq]
      exact hget
    have hn5 : n - 1 < 5 := by omega
    have hN : 28 + (monthLength y m - 28) = monthLength y m := by omega
    have hn2' : n ≤ (weekdayColumn (dayOfWeek y m 1) (monthLength y m)
        k).length := by
      rw [← monthWeekdayDays_eq]
      exact hn2
    have hlen_ge : n - 1 + 1 ≤ (weekdayColumn (dayOfWeek y m 1)
        (28 + (monthLength y m - 28)) k).length := by
      rw [hN]
      omega
    have happ := weekdayColumn_nth
      ⟨dayOfWeek y m 1, dayOfWeek_lt_seven y m 1⟩
      ⟨monthLength y m - 28, by omega⟩ ⟨k, hk⟩ ⟨n - 1, hn5⟩ hlen_ge
    have happ' : 1 ≤ ((weekdayColumn (dayOfWeek y m 1)
          (28 + (monthLength y m - 28)) k).get? (n - 1)).getD 0 ∧
        ((weekdayColumn (dayOfWeek y m 1) (28 + (monthLength y m - 28))
          k).get? (n - 1)).getD 0 ≤ 28 + (monthLength y m - 28) ∧
        (dayOfWeek y m 1 + (((weekdayColumn (dayOfWeek y m 1)
          (28 + (monthLength y m - 28)) k).get? (n - 1)).getD 0 - 1)) % 7
          = k ∧
        nthCountBefore (dayOfWeek y m 1) (28 + (monthLength y m - 28)) k
          (((weekdayColumn (dayOfWeek y m 1)
            (28 + (monthLength y m - 28)) k).get? (n - 1)).getD 0)
          = n - 1 := happ
    rw [hN, hget', Option.getD_some] at happ'
    obtain ⟨hd1, hd2, hd3, hd4⟩ := happ'
    refine ⟨hd1, hd2, ?_, ?_⟩
    · rw [dayOfWeek_shift y m d hd1]
      exact hd3
    · rw [isNth_count_eq y m k d]
      exact hd4
  · decide

/-- Witness for C6: the 3rd Friday of January 2024 is 2024-01-19, and it
is the 3rd occurrence of Friday (weekday 4) in that month. -/
theorem claim_C6_nth_weekday_witness :
    (∃ d, nthWeekdayDate 2024 1 4 3 = some ⟨2024, 1, d⟩ ∧
      isNthWeekdayOfMonth 2024 1 4 3 d) ∧
    EngineCN.get_futures_delivery 2024 1 = some ⟨2024, 1, 19⟩ :=
  claim_C6_nth_weekday 2024 1 4 3 (by norm_num) (by norm_num) (by norm_num)
    (by norm_num) (by decide)

/-- C10: every month of every year contains at least four occurrences of
each weekday, so the occurrence-count guards of the four concrete expiry
rules (3rd Friday / 4th Wednesday / 2nd Friday) always hold and the
`None`-returning branch of each expiry function is unreachable. -/
theorem claim_C10_delivery_total (y m : Nat) (hm1 : 1 ≤ m) (hm2 : m ≤ 12) :
    (∀ k, k < 7 → 4 ≤ (monthWeekdayDays y m k).length) ∧
    (EngineCN.get_futures_delivery y m).isSome = true ∧
    (EngineCN.get_option_delivery y m).isSome = true ∧
    (EngineJP.get_futures_delivery y m).isSome = true ∧
    (EngineJP.get_option_delivery y m).isSome = true := by
  have h4 : ∀ k, k < 7 → 4 ≤ (monthWeekdayDays y m k).length :=
    fun k hk => (monthWeekdayDays_shape y m k hm1 hm2 hk).1
  refine ⟨h4, ?_, ?_, ?_, ?_⟩
  · obtain ⟨d, hd, _⟩ := @nthWeekdayDate_isSome y m 4 3 (by norm_num)
      (le_trans (by norm_num) (h4 4 (by norm_num)))
    show (nthWeekdayDate y m 4 3).isSome = true
    rw [hd]; rfl
  · obtain ⟨d, hd, _⟩ := @nthWeekdayDate_isSome y m 2 4 (by norm_num)
      (le_trans (by norm_num) (h4 2 (by norm_num)))
    show (nthWeekdayDate y m 2 4).isSome = true
    rw [hd]; rfl
  · obtain ⟨d, hd, _⟩ := @nthWeekdayDate_isSome y m 4 2 (by norm_num)
      (le_trans (by norm_num) (h4 4 (by norm_num)))
    show (nthWeekdayDate y m 4 2).isSome = true
    rw [hd]; rfl
  · obtain ⟨d, hd, _⟩ := @nthWeekdayDate_isSome y m 4 3 (by norm_num)
      (le_trans (by norm_num) (h4 4 (by norm_num)))
    show (nthWeekdayDate y m 4 3).isSome = true
    rw [hd]; rfl

/-- Witness for C10 at (2024, 1): all four expiry rules return a date. -/
theorem claim_C10_delivery_total_witness :
    (∀ k, k < 7 → 4 ≤ (monthWeekdayDays 2024 1 k).length) ∧
    (EngineCN.get_futures_delivery 2024 1).isSome = true ∧
    (EngineCN.get_option_delivery 2024 1).isSome = true ∧
    (EngineJP.get_futures_delivery 2024 1).isSome = true ∧
    (EngineJP.get_option_delivery 2024 1).isSome = true :=
  claim_C10_delivery_total 2024 1 (by norm_num) (by norm_num)
